import Mathlib

/-!
Verification of the transfer-and-verify pipeline in `modal_dataloader.py`.

The pipeline downloads dataset shards from a remote repository, uploads them
to a destination volume through an external CLI, re-downloads them and
compares SHA-256 digests, and tallies per-shard successes and failures.

The embedding is shallow:
* file contents are `List Nat` byte strings;
* the external environment (results of shelled-out commands, contents served
  by the source repository, contents stored in the destination volume) is a
  `World` record of functions;
* each pipeline function returns its result together with the ordered list
  of observable `Event`s it performs, so that temporal properties (ordering
  of deletions, absence of re-downloads) are statements about traces;
* `hashlib.sha256` is embedded as a full executable SHA-256 over byte lists,
  with the streaming `update` interface modelled by buffer accumulation,
  exactly the observable semantics of the library object.
-/

/-- A file content: a byte string, one `Nat` per byte. -/
abbrev Bytes := List Nat

/-- Truncation to a 32-bit word, `n % 2^32`. -/
def w32 (n : Nat) : Nat := n % 4294967296

/-- Right rotation of a 32-bit word by `n` bits. -/
def rotr32 (n x : Nat) : Nat := w32 ((x >>> n) ||| (x <<< (32 - n)))

/-- SHA-256 `Ch` function. -/
def sha256_ch (e f g : Nat) : Nat := (e &&& f) ^^^ ((e ^^^ 4294967295) &&& g)

/-- SHA-256 `Maj` function. -/
def sha256_maj (a b c : Nat) : Nat := (a &&& b) ^^^ (a &&& c) ^^^ (b &&& c)

/-- SHA-256 big sigma 0. -/
def bsig0 (x : Nat) : Nat := rotr32 2 x ^^^ rotr32 13 x ^^^ rotr32 22 x

/-- SHA-256 big sigma 1. -/
def bsig1 (x : Nat) : Nat := rotr32 6 x ^^^ rotr32 11 x ^^^ rotr32 25 x

/-- SHA-256 small sigma 0. -/
def ssig0 (x : Nat) : Nat := rotr32 7 x ^^^ rotr32 18 x ^^^ (x >>> 3)

/-- SHA-256 small sigma 1. -/
def ssig1 (x : Nat) : Nat := rotr32 17 x ^^^ rotr32 19 x ^^^ (x >>> 10)

/-- The 64 SHA-256 round constants. -/
def sha256K : List Nat :=
  [1116352408, 1899447441, 3049323471, 3921009573,
   961987163, 1508970993, 2453635748, 2870763221,
   3624381080, 310598401, 607225278, 1426881987,
   1925078388, 2162078206, 2614888103, 3248222580,
   3835390401, 4022224774, 264347078, 604807628,
   770255983, 1249150122, 1555081692, 1996064986,
   2554220882, 2821834349, 2952996808, 3210313671,
   3336571891, 3584528711, 113926993, 338241895,
   666307205, 773529912, 1294757372, 1396182291,
   1695183700, 1986661051, 2177026350, 2456956037,
   2730485921, 2820302411, 3259730800, 3345764771,
   3516065817, 3600352804, 4094571909, 275423344,
   430227734, 506948616, 659060556, 883997877,
   958139571, 1322822218, 1537002063, 1747873779,
   1955562222, 2024104815, 2227730452, 2361852424,
   2428436474, 2756734187, 3204031479, 3329325298]

/-- The eight 32-bit words of a SHA-256 hash state. -/
structure Hash8 where
  a : Nat
  b : Nat
  c : Nat
  d : Nat
  e : Nat
  f : Nat
  g : Nat
  h : Nat
deriving DecidableEq

/-- SHA-256 initial hash value. -/
def sha256_init : Hash8 :=
  ⟨1779033703, 3144134277, 1013904242, 2773480762, 1359893119, 2600822924, 528734635, 1541459225⟩

/-- Big-endian 8-byte encoding of the 64-bit message bit length. -/
def lenBytes (n : Nat) : Bytes :=
  [n / 72057594037927936 % 256, n / 281474976710656 % 256, n / 1099511627776 % 256,
   n / 4294967296 % 256, n / 16777216 % 256, n / 65536 % 256, n / 256 % 256, n % 256]

/-- SHA-256 padding: append `0x80`, zeros to 56 mod 64, then the bit length. -/
def sha256_pad (m : Bytes) : Bytes :=
  let L := m.length
  let k := (64 - ((L + 9) % 64)) % 64
  m ++ [128] ++ List.replicate k 0 ++ lenBytes (8 * L)

/-- Group bytes into big-endian 32-bit words. -/
def bytesToWords : Bytes → List Nat
  | a :: b :: c :: d :: rest => (a * 16777216 + b * 65536 + c * 256 + d) :: bytesToWords rest
  | _ => []

/-- Split a word list into blocks of 16 words.  The first argument is
recursion fuel; called with the list length it covers the whole list. -/
def toBlocks : Nat → List Nat → List (List Nat)
  | 0, _ => []
  | fuel + 1, ws => if ws.isEmpty then [] else ws.take 16 :: toBlocks fuel (ws.drop 16)

/-- Extend a 16-word block to the 64-word message schedule: each step appends
`ssig1 w[i-2] + w[i-7] + ssig0 w[i-15] + w[i-16]` (mod 2^32). -/
def extendSchedule (ws : List Nat) : Nat → List Nat
  | 0 => ws
  | k + 1 =>
    let i := ws.length
    extendSchedule
      (ws ++ [w32 (ssig1 (ws.getD (i - 2) 0) + ws.getD (i - 7) 0 +
                   ssig0 (ws.getD (i - 15) 0) + ws.getD (i - 16) 0)]) k

/-- One SHA-256 round on the working variables, consuming one (K, W) pair. -/
def sha256_round (st : Hash8) (kw : Nat × Nat) : Hash8 :=
  let t1 := w32 (st.h + bsig1 st.e + sha256_ch st.e st.f st.g + kw.1 + kw.2)
  let t2 := w32 (bsig0 st.a + sha256_maj st.a st.b st.c)
  ⟨w32 (t1 + t2), st.a, st.b, st.c, w32 (st.d + t1), st.e, st.f, st.g⟩

/-- Compress one 16-word block into the hash state. -/
def compressBlock (H : Hash8) (block : List Nat) : Hash8 :=
  let ws := extendSchedule block 48
  let st := (sha256K.zip ws).foldl sha256_round H
  ⟨w32 (H.a + st.a), w32 (H.b + st.b), w32 (H.c + st.c), w32 (H.d + st.d),
   w32 (H.e + st.e), w32 (H.f + st.f), w32 (H.g + st.g), w32 (H.h + st.h)⟩

/-- SHA-256 of a byte string, as the final eight-word hash state. -/
def sha256_words (m : Bytes) : Hash8 :=
  let ws := bytesToWords (sha256_pad m)
  (toBlocks ws.length ws).foldl compressBlock sha256_init

/-- Big-endian 4-byte decomposition of a 32-bit word. -/
def wordBytes (x : Nat) : Bytes :=
  [x / 16777216 % 256, x / 65536 % 256, x / 256 % 256, x % 256]

/-- SHA-256 of a byte string, as its 32-byte digest. -/
def sha256_bytes (m : Bytes) : Bytes :=
  let d := sha256_words m
  wordBytes d.a ++ wordBytes d.b ++ wordBytes d.c ++ wordBytes d.d ++
  wordBytes d.e ++ wordBytes d.f ++ wordBytes d.g ++ wordBytes d.h

/-- Lowercase hex digit for a value below 16. -/
def hexChar (n : Nat) : Char := if n < 10 then Char.ofNat (48 + n) else Char.ofNat (87 + n)

/-- Two lowercase hex digits of a byte. -/
def byteHex (b : Nat) : List Char := [hexChar (b / 16 % 16), hexChar (b % 16)]

/-- SHA-256 of a byte string as a lowercase hexadecimal string:
`hashlib.sha256(m).hexdigest()`. -/
def sha256_hexdigest (m : Bytes) : String :=
  String.mk ((sha256_bytes m).foldr (fun b acc => byteHex b ++ acc) [])

/-- The streaming hash object returned by `hashlib.sha256()`.  Its observable
semantics is the byte string accumulated so far: `update` appends, and
`hexdigest` hashes the accumulated bytes. -/
structure Sha256Hasher where
  buf : Bytes
deriving DecidableEq

/-- `hashlib` `update`: feed one chunk to the hash object. -/
def sha256_update (hs : Sha256Hasher) (chunk : Bytes) : Sha256Hasher := ⟨hs.buf ++ chunk⟩

/-- `hashlib` `hexdigest` of a streaming hash object. -/
def hexdigest (hs : Sha256Hasher) : String := sha256_hexdigest hs.buf

/-- The chunk sequence produced by `iter(lambda: f.read(block_size), b"")`:
successive `take block_size` slices until an empty read.  The first argument
is recursion fuel; with fuel `data.length` and a positive block size the
whole file is covered. -/
def readChunks (block_size : Nat) : Nat → Bytes → List Bytes
  | 0, _ => []
  | fuel + 1, data =>
    let chunk := data.take block_size
    if chunk.isEmpty then [] else chunk :: readChunks block_size fuel (data.drop block_size)

/-- `calculate_file_hash` (modal_dataloader.py:46-57): stream the file in
4096-byte chunks through a SHA-256 accumulator and return the hex digest.
The progress bar is presentation only and is not modelled. -/
def calculate_file_hash (content : Bytes) : String :=
  hexdigest ((readChunks 4096 content.length content).foldl sha256_update ⟨[]⟩)

/-- `calculate_file_hash` generalized to an arbitrary streaming block size,
used to state block-size independence of the digest. -/
def file_hash_with_block (block_size : Nat) (content : Bytes) : String :=
  hexdigest ((readChunks block_size content.length content).foldl sha256_update ⟨[]⟩)

/-- Exit code and captured standard output of one external command run. -/
structure CmdResult where
  exitCode : Nat
  stdout : String
deriving DecidableEq

/-- `run_command` (modal_dataloader.py:18-43) applied to the result of the
invoked command.  In the `show_progress` branch the command is run through
`Popen`/`communicate` and line 34 raises exactly when the return code is
nonzero; in the other branch `subprocess.run(check=True)` raises exactly
when the return code is nonzero.  Either way the raised error is caught and
`None` is returned, otherwise the captured standard output is returned. -/
def run_command (res : CmdResult) (show_progress : Bool) : Option String :=
  if show_progress then
    if res.exitCode ≠ 0 then none else some res.stdout
  else
    if res.exitCode ≠ 0 then none else some res.stdout

/-- Python truthiness of an `Option String` as tested by
`if run_command(...):` — `None` and the empty string are falsy. -/
def truthy : Option String → Bool
  | none => false
  | some s => !s.isEmpty

/-- Observable actions performed by the pipeline, in program order. -/
inductive Event where
  /-- the capability check command `modal --version` -/
  | checkVersion : Event
  /-- `hf_hub_download` of the named shard -/
  | fetchHF (filename : String) : Event
  /-- `calculate_file_hash` of the freshly fetched local file -/
  | hashLocal (path : String) : Event
  /-- the `modal volume put` command for the named shard -/
  | putCmd (volume local_path filename : String) : Event
  /-- the `modal volume get` command pulling a remote path for verification -/
  | getCmd (volume remote_path verify_path : String) : Event
  /-- `calculate_file_hash` of the re-downloaded verification copy -/
  | hashVerify (path : String) : Event
  /-- `os.remove` of the re-downloaded verification copy -/
  | removeVerify (path : String) : Event
  /-- `os.remove` of the freshly fetched local file -/
  | removeLocal (path : String) : Event
deriving DecidableEq

/-- The external environment of one run: results of shelled-out commands
(keyed by the exact command string), contents served by the dataset
repository (`none` models a raised fetch error), contents stored in the
destination volume as returned by `modal volume get`, and the temporary
directory chosen by `tempfile.TemporaryDirectory()`. -/
structure World where
  cmdResult : String → CmdResult
  hf : String → Option Bytes
  volumeContent : String → Bytes
  tempDir : String

/-- `os.path.basename` on the character list: the component after the last
slash. -/
def basenameAux (cs : List Char) : List Char :=
  cs.foldl (fun acc c => if c = '/' then [] else acc ++ [c]) []

/-- `os.path.basename`. -/
def basename (p : String) : String := String.mk (basenameAux p.data)

/-- The upload command string (modal_dataloader.py:136). -/
def put_cmd (volume_name local_path filename : String) : String :=
  "modal volume put " ++ volume_name ++ " " ++ local_path ++ " /" ++ filename

/-- The verification download command string (modal_dataloader.py:87). -/
def get_cmd (volume_name remote_path verify_path : String) : String :=
  "modal volume get " ++ volume_name ++ " " ++ remote_path ++ " " ++ verify_path

/-- `verify_modal_upload` (modal_dataloader.py:82-108): pull the uploaded
file back from the volume into `verify_path`; on a truthy download result
hash the copy, delete it, and compare digests; otherwise report failure.
The `except` branch of the source is unreachable in the model because the
modelled hash and delete operations on the just-written copy do not fail.
Returns the verdict and the trace of observable actions. -/
def verify_modal_upload (w : World) (volume_name remote_path local_hash temp_dir : String) :
    Bool × List Event :=
  let verify_path := temp_dir ++ "/verify_" ++ basename remote_path
  let download_cmd := get_cmd volume_name remote_path verify_path
  if truthy (run_command (w.cmdResult download_cmd) false) then
    let modal_hash := calculate_file_hash (w.volumeContent remote_path)
    if local_hash = modal_hash then
      (true, [Event.getCmd volume_name remote_path verify_path,
              Event.hashVerify verify_path, Event.removeVerify verify_path])
    else
      (false, [Event.getCmd volume_name remote_path verify_path,
               Event.hashVerify verify_path, Event.removeVerify verify_path])
  else
    (false, [Event.getCmd volume_name remote_path verify_path])

/-- `download_and_upload_file` (modal_dataloader.py:111-160): fetch the shard
(`none` models the raised fetch error, caught at line 158), hash it unless
verification is skipped, upload it, then either clean up immediately
(verification skipped), or verify and clean up only on verification success.
The preview of the binary file (lines 126-127) is print-only and not
modelled.  Returns the job verdict and the trace of observable actions. -/
def download_and_upload_file (w : World) (filename temp_dir volume_name : String)
    (skip_verification : Bool) : Bool × List Event :=
  match w.hf filename with
  | none => (false, [Event.fetchHF filename])
  | some content =>
    let local_path := temp_dir ++ "/" ++ filename
    let preEvents := Event.fetchHF filename ::
      (if skip_verification then [] else [Event.hashLocal local_path])
    let upload_cmd := put_cmd volume_name local_path filename
    if truthy (run_command (w.cmdResult upload_cmd) true) then
      if skip_verification then
        (true, preEvents ++ [Event.putCmd volume_name local_path filename,
                             Event.removeLocal local_path])
      else
        let local_hash := calculate_file_hash content
        match verify_modal_upload w volume_name ("/" ++ filename) local_hash temp_dir with
        | (true, vev) =>
          (true, preEvents ++ [Event.putCmd volume_name local_path filename] ++ vev ++
                 [Event.removeLocal local_path])
        | (false, vev) =>
          (false, preEvents ++ [Event.putCmd volume_name local_path filename] ++ vev)
    else
      (false, preEvents ++ [Event.putCmd volume_name local_path filename])

/-- The fixed validation shard name (modal_dataloader.py:193). -/
def finewebedu_val : String := "finewebedu_val_000000.bin"

/-- Python `f"{i:06d}"` for a natural number: decimal digits left-padded
with zeros to width six. -/
def pad6 (i : Nat) : String :=
  let s := toString i
  String.mk (List.replicate (6 - s.length) '0') ++ s

/-- The training shard name for 1-indexed shard `i`
(modal_dataloader.py:204). -/
def trainName (i : Nat) : String := "finewebedu_train_" ++ pad6 i ++ ".bin"

/-- The 1-indexed training shard indices `[1, ..., n]` of `range(1, n+1)`. -/
def trainIdx (n : Nat) : List Nat := (List.range n).map (· + 1)

/-- Accumulated outcome of the training loop. -/
structure LoopOut where
  successes : Nat
  failures : Nat
  jobs : List (String × Bool)
  events : List Event
deriving DecidableEq

/-- The training loop of `main` (modal_dataloader.py:203-211) over a list of
shard indices: each index is processed by `download_and_upload_file` and
tallied as a success or a failure; the loop never stops early. -/
def trainLoop (w : World) (temp_dir volume_name : String) (skip_verification : Bool) :
    List Nat → LoopOut
  | [] => ⟨0, 0, [], []⟩
  | i :: rest =>
    let f := trainName i
    let r := download_and_upload_file w f temp_dir volume_name skip_verification
    let out := trainLoop w temp_dir volume_name skip_verification rest
    { successes := if r.1 then out.successes + 1 else out.successes
      failures := if r.1 then out.failures else out.failures + 1
      jobs := (f, r.1) :: out.jobs
      events := r.2 ++ out.events }

/-- Result of one whole run of `main`. -/
structure RunResult where
  exitCode : Nat
  jobs : List (String × Bool)
  events : List Event
  summary : Option (Nat × Nat)
deriving DecidableEq

/-- `main` (modal_dataloader.py:163-221): check the destination CLI, process
the validation shard, then the training shards, and exit.  A falsy
capability check exits 1 before any transfer; a failed validation shard
exits 1 before any training shard; otherwise every training shard is
processed, the summary `(successful_uploads + 1, failed_uploads)` is
printed, and the exit code is 1 exactly when some training shard failed.
`jobs` records each processed shard with its verdict, in order. -/
def main_run (w : World) (skip_verification : Bool) (volume_name : String)
    (num_chunks : Nat) : RunResult :=
  if truthy (run_command (w.cmdResult "modal --version") false) then
    let td := w.tempDir
    let v := download_and_upload_file w finewebedu_val td volume_name skip_verification
    if v.1 then
      let out := trainLoop w td volume_name skip_verification (trainIdx num_chunks)
      { exitCode := if out.failures > 0 then 1 else 0
        jobs := (finewebedu_val, true) :: out.jobs
        events := Event.checkVersion :: (v.2 ++ out.events)
        summary := some (out.successes + 1, out.failures) }
    else
      { exitCode := 1
        jobs := [(finewebedu_val, false)]
        events := Event.checkVersion :: v.2
        summary := none }
  else
    { exitCode := 1, jobs := [], events := [Event.checkVersion], summary := none }

/-- All-fields-below-2^32 invariant of a SHA-256 hash state. -/
def Hash8.bounded (s : Hash8) : Prop :=
  s.a < 4294967296 ∧ s.b < 4294967296 ∧ s.c < 4294967296 ∧ s.d < 4294967296 ∧
  s.e < 4294967296 ∧ s.f < 4294967296 ∧ s.g < 4294967296 ∧ s.h < 4294967296

/-- Pack the eight words of a hash state into one number, base 2^32. -/
def packHash (s : Hash8) : Nat :=
  ((((((s.a * 4294967296 + s.b) * 4294967296 + s.c) * 4294967296 + s.d) * 4294967296 + s.e) *
      4294967296 + s.f) * 4294967296 + s.g) * 4294967296 + s.h

/-- Environment in which every command succeeds with output "ok", every shard
has content `[1, 2, 3]`, and the volume returns the same bytes. -/
def wOK : World :=
  { cmdResult := fun _ => ⟨0, "ok"⟩
    hf := fun _ => some [1, 2, 3]
    volumeContent := fun _ => [1, 2, 3]
    tempDir := "/t" }

/-- Like `wOK`, but the upload command for `f.bin` exits 0 with empty
standard output. -/
def wPutEmpty : World :=
  { wOK with cmdResult := fun c => if c = put_cmd "vol" "/t/f.bin" "f.bin" then ⟨0, ""⟩ else ⟨0, "ok"⟩ }

/-- Like `wOK`, but the upload command for `f.bin` exits 1. -/
def wPutFail : World :=
  { wOK with cmdResult := fun c => if c = put_cmd "vol" "/t/f.bin" "f.bin" then ⟨1, ""⟩ else ⟨0, "ok"⟩ }

/-- Like `wOK`, but the verification download of `/f.bin` exits 1. -/
def wGetFail : World :=
  { wOK with cmdResult := fun c => if c = get_cmd "vol" "/f.bin" "/t/verify_f.bin" then ⟨1, ""⟩ else ⟨0, "ok"⟩ }

/-- Like `wOK`, but the verification download of `/f.bin` exits 0 with empty
standard output. -/
def wGetEmpty : World :=
  { wOK with cmdResult := fun c => if c = get_cmd "vol" "/f.bin" "/t/verify_f.bin" then ⟨0, ""⟩ else ⟨0, "ok"⟩ }

/-- Like `wOK`, but `modal --version` exits 0 with empty standard output. -/
def wVersionEmpty : World :=
  { wOK with cmdResult := fun c => if c = "modal --version" then ⟨0, ""⟩ else ⟨0, "ok"⟩ }

/-- Like `wOK`, but the volume returns bytes different from every shard's
content. -/
def wMismatch : World := { wOK with volumeContent := fun _ => [9, 9] }

/-- Like `wOK`, but fetching the validation shard raises. -/
def wValFetchFail : World :=
  { wOK with hf := fun f => if f = finewebedu_val then none else some [1, 2, 3] }

/-- Like `wOK`, but fetching training shard 1 raises. -/
def wTrain1Fail : World :=
  { wOK with hf := fun f => if f = trainName 1 then none else some [1, 2, 3] }


theorem run_command_eq_branchless (res : CmdResult) (sp : Bool) :
    run_command res sp = if res.exitCode ≠ 0 then none else some res.stdout := by
  cases sp <;> rfl

theorem run_command_eq_none_iff (res : CmdResult) (sp : Bool) :
    run_command res sp = none ↔ res.exitCode ≠ 0 := by
  rw [run_command_eq_branchless]; split <;> simp_all

theorem run_command_of_zero (res : CmdResult) (sp : Bool) (h : res.exitCode = 0) :
    run_command res sp = some res.stdout := by
  rw [run_command_eq_branchless]; simp [h]

theorem truthy_run_command (res : CmdResult) (sp : Bool) :
    truthy (run_command res sp) = true ↔ res.exitCode = 0 ∧ res.stdout ≠ "" := by
  rw [run_command_eq_branchless]
  by_cases h : res.exitCode = 0
  · simp only [h, ne_eq, not_true_eq_false, if_false, truthy, Bool.not_eq_true',
      true_and, not_false_eq_true, ite_false]
    constructor
    · intro h2 h3; rw [h3] at h2; simp [String.isEmpty] at h2
    · intro h2
      cases hs : res.stdout.isEmpty
      · rfl
      · exact absurd ((String.isEmpty_iff res.stdout).mp hs) h2
  · simp [h, truthy]

theorem truthy_empty_stdout (sp : Bool) : truthy (run_command ⟨0, ""⟩ sp) = false := by
  cases sp <;> rfl

theorem foldl_update_buf (cs : List Bytes) (b : Bytes) :
    ((cs.foldl sha256_update ⟨b⟩).buf) = b ++ cs.flatten := by
  induction cs generalizing b with
  | nil => simp
  | cons c cs ih => simp [sha256_update, ih, List.append_assoc]

theorem readChunks_flatten (bs : Nat) (hbs : 0 < bs) :
    ∀ (fuel : Nat) (data : Bytes), data.length ≤ fuel →
      (readChunks bs fuel data).flatten = data := by
  intro fuel
  induction fuel with
  | zero =>
    intro data h
    have hnil : data = [] := List.length_eq_zero.mp (Nat.le_zero.mp h)
    simp [readChunks, hnil]
  | succ n ih =>
    intro data h
    by_cases hd : data = []
    · simp [readChunks, hd]
    · have htake : (data.take bs).isEmpty = false := by
        simp only [List.isEmpty_eq_false, ne_eq, List.take_eq_nil_iff, not_or]
        exact ⟨Nat.pos_iff_ne_zero.mp hbs, hd⟩
      have hlt : (data.drop bs).length ≤ n := by
        have := List.length_pos.mpr hd
        simp only [List.length_drop]
        omega
      rw [show readChunks bs (n + 1) data = data.take bs :: readChunks bs n (data.drop bs) by
        simp [readChunks, htake]]
      rw [List.flatten_cons, ih (data.drop bs) hlt, List.take_append_drop]

theorem file_hash_with_block_eq (bs : Nat) (hbs : 0 < bs) (content : Bytes) :
    file_hash_with_block bs content = sha256_hexdigest content := by
  unfold file_hash_with_block hexdigest
  rw [foldl_update_buf, readChunks_flatten bs hbs content.length content le_rfl,
    List.nil_append]

theorem calculate_file_hash_eq (content : Bytes) :
    calculate_file_hash content = sha256_hexdigest content := by
  have h : calculate_file_hash content = file_hash_with_block 4096 content := rfl
  rw [h, file_hash_with_block_eq 4096 (by norm_num)]

theorem hexChar_mem (n : Nat) (h : n < 16) : hexChar n ∈ ("0123456789abcdef").data := by
  interval_cases n <;> decide

theorem foldr_byteHex_length (bs : Bytes) :
    (bs.foldr (fun b acc => byteHex b ++ acc) []).length = 2 * bs.length := by
  induction bs with
  | nil => rfl
  | cons b bs ih =>
    rw [List.foldr_cons, List.length_append, ih]
    show 2 + 2 * bs.length = 2 * (bs.length + 1)
    omega

theorem foldr_byteHex_mem (bs : Bytes) (c : Char)
    (h : c ∈ bs.foldr (fun b acc => byteHex b ++ acc) []) :
    c ∈ ("0123456789abcdef").data := by
  induction bs with
  | nil => simp at h
  | cons b bs ih =>
    simp only [List.foldr_cons, List.mem_append] at h
    rcases h with h | h
    · simp only [byteHex, List.mem_cons, List.not_mem_nil, or_false] at h
      rcases h with h | h <;> subst h <;> exact hexChar_mem _ (Nat.mod_lt _ (by norm_num))
    · exact ih h

theorem sha256_bytes_length (m : Bytes) : (sha256_bytes m).length = 32 := by
  simp [sha256_bytes, wordBytes]

theorem sha256_hexdigest_length (m : Bytes) : (sha256_hexdigest m).length = 64 := by
  show ((sha256_bytes m).foldr (fun b acc => byteHex b ++ acc) []).length = 64
  rw [foldr_byteHex_length, sha256_bytes_length]

theorem sha256_hexdigest_chars (m : Bytes) :
    ∀ c ∈ (sha256_hexdigest m).data, c ∈ ("0123456789abcdef").data := by
  intro c hc
  exact foldr_byteHex_mem (sha256_bytes m) c hc

theorem pad6_length (i : Nat) : 6 ≤ (pad6 i).length := by
  have h : (pad6 i).length = (6 - (toString i).length) + (toString i).length := by
    simp [pad6, String.length_append, String.length_mk]
  omega

theorem trainName_length (i : Nat) : 27 ≤ (trainName i).length := by
  have h : (trainName i).length =
      ("finewebedu_train_" : String).length + (pad6 i).length + (".bin" : String).length := by
    simp [trainName, String.length_append]
  have h17 : ("finewebedu_train_" : String).length = 17 := rfl
  have h4 : ((".bin" : String)).length = 4 := rfl
  have := pad6_length i
  omega

theorem finewebedu_val_ne_trainName (i : Nat) : finewebedu_val ≠ trainName i := by
  intro h
  have hlen := congrArg String.length h
  have h25 : finewebedu_val.length = 25 := rfl
  have := trainName_length i
  omega

theorem verify_get_falsy (w : World) (vol rp lh td : String)
    (h : truthy (run_command
      (w.cmdResult (get_cmd vol rp (td ++ "/verify_" ++ basename rp))) false) = false) :
    verify_modal_upload w vol rp lh td =
      (false, [Event.getCmd vol rp (td ++ "/verify_" ++ basename rp)]) := by
  simp [verify_modal_upload, h]

theorem verify_get_truthy (w : World) (vol rp lh td : String)
    (h : truthy (run_command
      (w.cmdResult (get_cmd vol rp (td ++ "/verify_" ++ basename rp))) false) = true) :
    verify_modal_upload w vol rp lh td =
      (decide (lh = calculate_file_hash (w.volumeContent rp)),
       [Event.getCmd vol rp (td ++ "/verify_" ++ basename rp),
        Event.hashVerify (td ++ "/verify_" ++ basename rp),
        Event.removeVerify (td ++ "/verify_" ++ basename rp)]) := by
  by_cases hc : lh = calculate_file_hash (w.volumeContent rp) <;>
    simp [verify_modal_upload, h, hc]

theorem dl_fetch_fail (w : World) (f td vol : String) (skip : Bool)
    (h : w.hf f = none) :
    download_and_upload_file w f td vol skip = (false, [Event.fetchHF f]) := by
  simp [download_and_upload_file, h]

theorem dl_put_falsy (w : World) (f td vol : String) (skip : Bool) (content : Bytes)
    (hfetch : w.hf f = some content)
    (hput : truthy (run_command (w.cmdResult (put_cmd vol (td ++ "/" ++ f) f)) true) = false) :
    download_and_upload_file w f td vol skip =
      (false, Event.fetchHF f ::
        (if skip then [] else [Event.hashLocal (td ++ "/" ++ f)]) ++
        [Event.putCmd vol (td ++ "/" ++ f) f]) := by
  cases skip <;> simp [download_and_upload_file, hfetch, hput]

theorem dl_skip_ok (w : World) (f td vol : String) (content : Bytes)
    (hfetch : w.hf f = some content)
    (hput : truthy (run_command (w.cmdResult (put_cmd vol (td ++ "/" ++ f) f)) true) = true) :
    download_and_upload_file w f td vol true =
      (true, [Event.fetchHF f, Event.putCmd vol (td ++ "/" ++ f) f,
              Event.removeLocal (td ++ "/" ++ f)]) := by
  simp [download_and_upload_file, hfetch, hput]

theorem dl_verify_ok (w : World) (f td vol : String) (content : Bytes) (vev : List Event)
    (hfetch : w.hf f = some content)
    (hput : truthy (run_command (w.cmdResult (put_cmd vol (td ++ "/" ++ f) f)) true) = true)
    (hver : verify_modal_upload w vol ("/" ++ f) (calculate_file_hash content) td =
      (true, vev)) :
    download_and_upload_file w f td vol false =
      (true, [Event.fetchHF f, Event.hashLocal (td ++ "/" ++ f),
              Event.putCmd vol (td ++ "/" ++ f) f] ++ vev ++
             [Event.removeLocal (td ++ "/" ++ f)]) := by
  simp [download_and_upload_file, hfetch, hput, hver]

theorem dl_verify_fail (w : World) (f td vol : String) (content : Bytes) (vev : List Event)
    (hfetch : w.hf f = some content)
    (hput : truthy (run_command (w.cmdResult (put_cmd vol (td ++ "/" ++ f) f)) true) = true)
    (hver : verify_modal_upload w vol ("/" ++ f) (calculate_file_hash content) td =
      (false, vev)) :
    download_and_upload_file w f td vol false =
      (false, [Event.fetchHF f, Event.hashLocal (td ++ "/" ++ f),
               Event.putCmd vol (td ++ "/" ++ f) f] ++ vev) := by
  simp [download_and_upload_file, hfetch, hput, hver]

theorem main_run_cap_fail (w : World) (skip : Bool) (vol : String) (N : Nat)
    (h : truthy (run_command (w.cmdResult "modal --version") false) = false) :
    main_run w skip vol N = ⟨1, [], [Event.checkVersion], none⟩ := by
  simp [main_run, h]

theorem main_run_val_fail (w : World) (skip : Bool) (vol : String) (N : Nat)
    (hcap : truthy (run_command (w.cmdResult "modal --version") false) = true)
    (hval : (download_and_upload_file w finewebedu_val w.tempDir vol skip).1 = false) :
    main_run w skip vol N =
      ⟨1, [(finewebedu_val, false)],
       Event.checkVersion :: (download_and_upload_file w finewebedu_val w.tempDir vol skip).2,
       none⟩ := by
  simp [main_run, hcap, hval]

theorem main_run_val_ok (w : World) (skip : Bool) (vol : String) (N : Nat)
    (hcap : truthy (run_command (w.cmdResult "modal --version") false) = true)
    (hval : (download_and_upload_file w finewebedu_val w.tempDir vol skip).1 = true) :
    main_run w skip vol N =
      { exitCode :=
          if (trainLoop w w.tempDir vol skip (trainIdx N)).failures > 0 then 1 else 0
        jobs := (finewebedu_val, true) :: (trainLoop w w.tempDir vol skip (trainIdx N)).jobs
        events := Event.checkVersion ::
          ((download_and_upload_file w finewebedu_val w.tempDir vol skip).2 ++
           (trainLoop w w.tempDir vol skip (trainIdx N)).events)
        summary := some ((trainLoop w w.tempDir vol skip (trainIdx N)).successes + 1,
                         (trainLoop w w.tempDir vol skip (trainIdx N)).failures) } := by
  simp [main_run, hcap, hval]

theorem trainLoop_jobs (w : World) (td vol : String) (skip : Bool) :
    ∀ is : List Nat, (trainLoop w td vol skip is).jobs =
      is.map (fun i => (trainName i, (download_and_upload_file w (trainName i) td vol skip).1)) := by
  intro is
  induction is with
  | nil => rfl
  | cons i rest ih => simp [trainLoop, ih]

theorem trainLoop_failures (w : World) (td vol : String) (skip : Bool) :
    ∀ is : List Nat, (trainLoop w td vol skip is).failures =
      is.countP (fun i => !(download_and_upload_file w (trainName i) td vol skip).1) := by
  intro is
  induction is with
  | nil => rfl
  | cons i rest ih =>
    cases hdl : (download_and_upload_file w (trainName i) td vol skip).1 <;>
      simp [trainLoop, ih, List.countP_cons, hdl]

theorem trainLoop_successes (w : World) (td vol : String) (skip : Bool) :
    ∀ is : List Nat, (trainLoop w td vol skip is).successes =
      is.countP (fun i => (download_and_upload_file w (trainName i) td vol skip).1) := by
  intro is
  induction is with
  | nil => rfl
  | cons i rest ih =>
    cases hdl : (download_and_upload_file w (trainName i) td vol skip).1 <;>
      simp [trainLoop, ih, List.countP_cons, hdl]


theorem verify_no_fetch (w : World) (vol rp lh td g : String) :
    Event.fetchHF g ∉ (verify_modal_upload w vol rp lh td).2 := by
  simp only [verify_modal_upload]
  split_ifs <;> simp

theorem verify_no_put (w : World) (vol rp lh td v lp g : String) :
    Event.putCmd v lp g ∉ (verify_modal_upload w vol rp lh td).2 := by
  simp only [verify_modal_upload]
  split_ifs <;> simp

theorem verify_no_removeLocal (w : World) (vol rp lh td p : String) :
    Event.removeLocal p ∉ (verify_modal_upload w vol rp lh td).2 := by
  simp only [verify_modal_upload]
  split_ifs <;> simp

theorem verify_get_remote (w : World) (vol rp lh td v r2 vp : String)
    (h : Event.getCmd v r2 vp ∈ (verify_modal_upload w vol rp lh td).2) : r2 = rp := by
  simp only [verify_modal_upload] at h
  split_ifs at h <;> simp_all

theorem dl_fetch_mem (w : World) (f td vol : String) (skip : Bool) (g : String)
    (h : Event.fetchHF g ∈ (download_and_upload_file w f td vol skip).2) : g = f := by
  cases hhf : w.hf f with
  | none => rw [dl_fetch_fail w f td vol skip hhf] at h; simp_all
  | some content =>
    cases hput : truthy (run_command (w.cmdResult (put_cmd vol (td ++ "/" ++ f) f)) true) with
    | false =>
      rw [dl_put_falsy w f td vol skip content hhf hput] at h
      cases skip <;> simp_all
    | true =>
      cases skip with
      | true => rw [dl_skip_ok w f td vol content hhf hput] at h; simp_all
      | false =>
        rcases hv : verify_modal_upload w vol ("/" ++ f) (calculate_file_hash content) td
          with ⟨b, vev⟩
        have hnf := verify_no_fetch w vol ("/" ++ f) (calculate_file_hash content) td g
        rw [hv] at hnf
        cases b with
        | true =>
          rw [dl_verify_ok w f td vol content vev hhf hput hv] at h
          simp at h
          rcases h with h | h
          · exact h
          · exact absurd h hnf
        | false =>
          rw [dl_verify_fail w f td vol content vev hhf hput hv] at h
          simp at h
          rcases h with h | h
          · exact h
          · exact absurd h hnf

theorem dl_put_mem (w : World) (f td vol : String) (skip : Bool) (v lp g : String)
    (h : Event.putCmd v lp g ∈ (download_and_upload_file w f td vol skip).2) : g = f := by
  cases hhf : w.hf f with
  | none => rw [dl_fetch_fail w f td vol skip hhf] at h; simp_all
  | some content =>
    cases hput : truthy (run_command (w.cmdResult (put_cmd vol (td ++ "/" ++ f) f)) true) with
    | false =>
      rw [dl_put_falsy w f td vol skip content hhf hput] at h
      cases skip <;> simp_all
    | true =>
      cases skip with
      | true =>
        rw [dl_skip_ok w f td vol content hhf hput] at h; simp_all
      | false =>
        rcases hv : verify_modal_upload w vol ("/" ++ f) (calculate_file_hash content) td
          with ⟨b, vev⟩
        have hnp := verify_no_put w vol ("/" ++ f) (calculate_file_hash content) td v lp g
        rw [hv] at hnp
        cases b with
        | true =>
          rw [dl_verify_ok w f td vol content vev hhf hput hv] at h
          simp at h
          rcases h with h | h
          · exact h.2.2
          · exact absurd h hnp
        | false =>
          rw [dl_verify_fail w f td vol content vev hhf hput hv] at h
          simp at h
          rcases h with h | h
          · exact h.2.2
          · exact absurd h hnp

theorem dl_get_mem (w : World) (f td vol : String) (skip : Bool) (v rp vp : String)
    (h : Event.getCmd v rp vp ∈ (download_and_upload_file w f td vol skip).2) :
    rp = "/" ++ f := by
  cases hhf : w.hf f with
  | none => rw [dl_fetch_fail w f td vol skip hhf] at h; simp_all
  | some content =>
    cases hput : truthy (run_command (w.cmdResult (put_cmd vol (td ++ "/" ++ f) f)) true) with
    | false =>
      rw [dl_put_falsy w f td vol skip content hhf hput] at h
      cases skip <;> simp_all
    | true =>
      cases skip with
      | true =>
        rw [dl_skip_ok w f td vol content hhf hput] at h; simp_all
      | false =>
        rcases hv : verify_modal_upload w vol ("/" ++ f) (calculate_file_hash content) td
          with ⟨b, vev⟩
        have hg := verify_get_remote w vol ("/" ++ f) (calculate_file_hash content) td v rp vp
        rw [hv] at hg
        cases b with
        | true =>
          rw [dl_verify_ok w f td vol content vev hhf hput hv] at h
          simp at h
          exact hg h
        | false =>
          rw [dl_verify_fail w f td vol content vev hhf hput hv] at h
          simp at h
          exact hg h

theorem dl_no_removeLocal_of_fail (w : World) (f td vol : String) (skip : Bool) (p : String)
    (hfail : (download_and_upload_file w f td vol skip).1 = false) :
    Event.removeLocal p ∉ (download_and_upload_file w f td vol skip).2 := by
  cases hhf : w.hf f with
  | none => rw [dl_fetch_fail w f td vol skip hhf]; simp
  | some content =>
    cases hput : truthy (run_command (w.cmdResult (put_cmd vol (td ++ "/" ++ f) f)) true) with
    | false =>
      rw [dl_put_falsy w f td vol skip content hhf hput]
      cases skip <;> simp
    | true =>
      cases skip with
      | true =>
        rw [dl_skip_ok w f td vol content hhf hput] at hfail
        simp at hfail
      | false =>
        rcases hv : verify_modal_upload w vol ("/" ++ f) (calculate_file_hash content) td
          with ⟨b, vev⟩
        have hnr := verify_no_removeLocal w vol ("/" ++ f) (calculate_file_hash content) td p
        rw [hv] at hnr
        cases b with
        | true =>
          rw [dl_verify_ok w f td vol content vev hhf hput hv] at hfail
          simp at hfail
        | false =>
          rw [dl_verify_fail w f td vol content vev hhf hput hv]
          simp
          exact fun hmem => absurd hmem hnr

theorem compressBlock_bounded (H : Hash8) (block : List Nat) :
    (compressBlock H block).bounded := by
  unfold compressBlock Hash8.bounded w32
  refine ⟨?_, ?_, ?_, ?_, ?_, ?_, ?_, ?_⟩ <;> exact Nat.mod_lt _ (by norm_num)

theorem foldl_compress_bounded (blocks : List (List Nat)) (H : Hash8) (hH : H.bounded) :
    (blocks.foldl compressBlock H).bounded := by
  induction blocks generalizing H with
  | nil => exact hH
  | cons b bs ih =>
    rw [List.foldl_cons]
    exact ih _ (compressBlock_bounded H b)

theorem sha256_words_bounded (m : Bytes) : (sha256_words m).bounded := by
  unfold sha256_words
  exact foldl_compress_bounded _ _ (by unfold sha256_init Hash8.bounded; norm_num)

theorem packHash_lt (s : Hash8) (h : s.bounded) :
    packHash s < 115792089237316195423570985008687907853269984665640564039457584007913129639936 := by
  obtain ⟨h1, h2, h3, h4, h5, h6, h7, h8⟩ := h
  unfold packHash
  omega

theorem packHash_inj (s t : Hash8) (hs : s.bounded) (ht : t.bounded)
    (h : packHash s = packHash t) : s = t := by
  obtain ⟨a, b, c, d, e, f, g, hh⟩ := s
  obtain ⟨a2, b2, c2, d2, e2, f2, g2, h2⟩ := t
  obtain ⟨q1, q2, q3, q4, q5, q6, q7, q8⟩ := hs
  obtain ⟨r1, r2, r3, r4, r5, r6, r7, r8⟩ := ht
  simp only [Hash8.mk.injEq]
  unfold packHash at h
  simp only at h q1 q2 q3 q4 q5 q6 q7 q8 r1 r2 r3 r4 r5 r6 r7 r8
  omega

theorem sha256_hexdigest_not_injective :
    ∃ x y : Bytes, x ≠ y ∧ sha256_hexdigest x = sha256_hexdigest y := by
  classical
  let F : Bytes → Fin 115792089237316195423570985008687907853269984665640564039457584007913129639936 :=
    fun m => ⟨packHash (sha256_words m), packHash_lt _ (sha256_words_bounded m)⟩
  obtain ⟨x, y, hxy, hF⟩ := Finite.exists_ne_map_eq_of_infinite F
  refine ⟨x, y, hxy, ?_⟩
  have hpack : packHash (sha256_words x) = packHash (sha256_words y) :=
    congrArg Fin.val hF
  have hw : sha256_words x = sha256_words y :=
    packHash_inj _ _ (sha256_words_bounded x) (sha256_words_bounded y) hpack
  unfold sha256_hexdigest sha256_bytes
  rw [hw]

theorem calculate_file_hash_collision :
    ∃ x y : Bytes, x ≠ y ∧ calculate_file_hash x = calculate_file_hash y := by
  obtain ⟨x, y, hxy, hsha⟩ := sha256_hexdigest_not_injective
  exact ⟨x, y, hxy, by rw [calculate_file_hash_eq, calculate_file_hash_eq, hsha]⟩

/-- Claim C8: for every file content, the digest is deterministic (it is a
pure function of the bytes, equal to the SHA-256 hex digest of the whole
content), it is independent of the streaming block size chosen (folding the
hash over fixed-size chunks of any positive size equals hashing the whole
byte content), and it is a fixed-length (64-character) hexadecimal
string. -/
theorem claim_C8 (content : Bytes) (block_size : Nat) (hbs : 0 < block_size) :
    file_hash_with_block block_size content = calculate_file_hash content ∧
    calculate_file_hash content = sha256_hexdigest content ∧
    (calculate_file_hash content).length = 64 ∧
    ∀ c ∈ (calculate_file_hash content).data, c ∈ ("0123456789abcdef").data := by
  refine ⟨?_, calculate_file_hash_eq content, ?_, ?_⟩
  · rw [file_hash_with_block_eq _ hbs, calculate_file_hash_eq]
  · rw [calculate_file_hash_eq]; exact sha256_hexdigest_length content
  · rw [calculate_file_hash_eq]; exact sha256_hexdigest_chars content

/-- Witness for C8 at block size 5 and content `[7, 8, 9]`. -/
theorem claim_C8_witness :
    0 < 5 ∧
    (file_hash_with_block 5 [7, 8, 9] = calculate_file_hash [7, 8, 9] ∧
     calculate_file_hash [7, 8, 9] = sha256_hexdigest [7, 8, 9] ∧
     (calculate_file_hash [7, 8, 9]).length = 64 ∧
     ∀ c ∈ (calculate_file_hash [7, 8, 9]).data, c ∈ ("0123456789abcdef").data) :=
  ⟨by decide, claim_C8 [7, 8, 9] 5 (by decide)⟩

/-- Claim C7: whenever the verification re-download is accepted, the trace of
`verify_modal_upload` is exactly download, hash, delete — the re-downloaded
copy is removed immediately after its digest is computed, before and
independently of the outcome of the digest comparison — and the verdict is
exactly the digest comparison. -/
theorem claim_C7 (w : World) (vol rp lh td : String)
    (hget : truthy (run_command
      (w.cmdResult (get_cmd vol rp (td ++ "/verify_" ++ basename rp))) false) = true) :
    (verify_modal_upload w vol rp lh td).2 =
      [Event.getCmd vol rp (td ++ "/verify_" ++ basename rp),
       Event.hashVerify (td ++ "/verify_" ++ basename rp),
       Event.removeVerify (td ++ "/verify_" ++ basename rp)] ∧
    ((verify_modal_upload w vol rp lh td).1 = true ↔
      lh = calculate_file_hash (w.volumeContent rp)) := by
  rw [verify_get_truthy w vol rp lh td hget]
  simp

/-- Witness for C7 in the all-successful environment with a mismatching
local digest. -/
theorem claim_C7_witness :
    (truthy (run_command
      (wOK.cmdResult (get_cmd "vol" "/f.bin" ("/t" ++ "/verify_" ++ basename "/f.bin"))) false)
      = true) ∧
    ((verify_modal_upload wOK "vol" "/f.bin" "zz" "/t").2 =
      [Event.getCmd "vol" "/f.bin" ("/t" ++ "/verify_" ++ basename "/f.bin"),
       Event.hashVerify ("/t" ++ "/verify_" ++ basename "/f.bin"),
       Event.removeVerify ("/t" ++ "/verify_" ++ basename "/f.bin")] ∧
     ((verify_modal_upload wOK "vol" "/f.bin" "zz" "/t").1 = true ↔
       "zz" = calculate_file_hash (wOK.volumeContent "/f.bin"))) :=
  ⟨by decide, claim_C7 wOK "vol" "/f.bin" "zz" "/t" (by decide)⟩

/-- Claim C5: with verification enabled, if the upload command fails (nonzero
exit code) the function returns false and its trace contains no `get`
re-download at all. -/
theorem claim_C5 (w : World) (f td vol : String) (content : Bytes)
    (hfetch : w.hf f = some content)
    (hput : (w.cmdResult (put_cmd vol (td ++ "/" ++ f) f)).exitCode ≠ 0) :
    download_and_upload_file w f td vol false =
      (false, [Event.fetchHF f, Event.hashLocal (td ++ "/" ++ f),
               Event.putCmd vol (td ++ "/" ++ f) f]) ∧
    ∀ v rp vp, Event.getCmd v rp vp ∉ (download_and_upload_file w f td vol false).2 := by
  have hfalse : truthy (run_command (w.cmdResult (put_cmd vol (td ++ "/" ++ f) f)) true)
      = false := by
    rw [(run_command_eq_none_iff _ _).mpr hput]; rfl
  have hd := dl_put_falsy w f td vol false content hfetch hfalse
  constructor
  · rw [hd]; simp
  · intro v rp vp; rw [hd]; simp

/-- Witness for C5 in the environment where the upload of `f.bin` exits 1. -/
theorem claim_C5_witness :
    wPutFail.hf "f.bin" = some [1, 2, 3] ∧
    ((wPutFail.cmdResult (put_cmd "vol" ("/t" ++ "/" ++ "f.bin") "f.bin")).exitCode ≠ 0 ∧
     (download_and_upload_file wPutFail "f.bin" "/t" "vol" false =
       (false, [Event.fetchHF "f.bin", Event.hashLocal ("/t" ++ "/" ++ "f.bin"),
                Event.putCmd "vol" ("/t" ++ "/" ++ "f.bin") "f.bin"]) ∧
      ∀ v rp vp, Event.getCmd v rp vp ∉
        (download_and_upload_file wPutFail "f.bin" "/t" "vol" false).2)) :=
  ⟨rfl, by decide, claim_C5 wPutFail "f.bin" "/t" "vol" [1, 2, 3] rfl (by decide)⟩

/-- Counterexample to claim C1 as stated.  Success of the `put` operation is
exit code 0 of the upload command, but the pipeline tests the truthiness of
the captured standard output, so an upload that exits 0 with empty output is
treated as a failure (first scenario); and equality of the stored content is
not enough when the verification re-download itself fails (second scenario,
exit code 1 on the `get` command): in both, the function returns false even
though `put` succeeded and the stored bytes equal the local bytes. -/
theorem claim_C1_counterexample :
    (¬ ∀ (w : World) (f td vol : String) (content : Bytes),
        w.hf f = some content →
        (w.cmdResult (put_cmd vol (td ++ "/" ++ f) f)).exitCode = 0 →
        w.volumeContent ("/" ++ f) = content →
        ((download_and_upload_file w f td vol false).1 = true ∧
         (download_and_upload_file w f td vol false).2 =
           [Event.fetchHF f, Event.hashLocal (td ++ "/" ++ f),
            Event.putCmd vol (td ++ "/" ++ f) f,
            Event.getCmd vol ("/" ++ f) (td ++ "/verify_" ++ basename ("/" ++ f)),
            Event.hashVerify (td ++ "/verify_" ++ basename ("/" ++ f)),
            Event.removeVerify (td ++ "/verify_" ++ basename ("/" ++ f)),
            Event.removeLocal (td ++ "/" ++ f)])) ∧
    (wGetFail.hf "f.bin" = some [1, 2, 3] ∧
     (wGetFail.cmdResult (put_cmd "vol" ("/t" ++ "/" ++ "f.bin") "f.bin")).exitCode = 0 ∧
     wGetFail.volumeContent ("/" ++ "f.bin") = [1, 2, 3] ∧
     (download_and_upload_file wGetFail "f.bin" "/t" "vol" false).1 = false) := by
  constructor
  · intro h
    have h1 := (h wPutEmpty "f.bin" "/t" "vol" [1, 2, 3] rfl (by decide) rfl).1
    have h2 : (download_and_upload_file wPutEmpty "f.bin" "/t" "vol" false).1 = false := by
      decide
    rw [h1] at h2
    exact Bool.true_eq_false ▸ h2
  · exact ⟨rfl, by decide, rfl, by decide⟩

/-- Claim C1, amended: if `put` is accepted by the pipeline (exit code 0 and
non-empty captured output), the verification re-download is likewise
accepted, and the stored remote content equals the local content, then
`download_and_upload_file` returns true and its trace deletes the local
fetched file only at the very end, after the verification events — no local
cleanup happens before the success determination. -/
theorem claim_C1 (w : World) (f td vol : String) (content : Bytes)
    (hfetch : w.hf f = some content)
    (hput : truthy (run_command (w.cmdResult (put_cmd vol (td ++ "/" ++ f) f)) true) = true)
    (hget : truthy (run_command
      (w.cmdResult (get_cmd vol ("/" ++ f) (td ++ "/verify_" ++ basename ("/" ++ f))))
      false) = true)
    (hcontent : w.volumeContent ("/" ++ f) = content) :
    download_and_upload_file w f td vol false =
      (true, [Event.fetchHF f, Event.hashLocal (td ++ "/" ++ f),
              Event.putCmd vol (td ++ "/" ++ f) f,
              Event.getCmd vol ("/" ++ f) (td ++ "/verify_" ++ basename ("/" ++ f)),
              Event.hashVerify (td ++ "/verify_" ++ basename ("/" ++ f)),
              Event.removeVerify (td ++ "/verify_" ++ basename ("/" ++ f)),
              Event.removeLocal (td ++ "/" ++ f)]) := by
  have hver := verify_get_truthy w vol ("/" ++ f) (calculate_file_hash content) td hget
  rw [hcontent] at hver
  rw [decide_eq_true (Eq.refl (calculate_file_hash content))] at hver
  have hd := dl_verify_ok w f td vol content _ hfetch hput hver
  rw [hd]
  simp

/-- Witness for the amended C1 in the all-successful environment. -/
theorem claim_C1_witness :
    wOK.hf "f.bin" = some [1, 2, 3] ∧
    (truthy (run_command (wOK.cmdResult (put_cmd "vol" ("/t" ++ "/" ++ "f.bin") "f.bin")) true)
      = true ∧
     truthy (run_command
       (wOK.cmdResult (get_cmd "vol" ("/" ++ "f.bin")
         ("/t" ++ "/verify_" ++ basename ("/" ++ "f.bin")))) false) = true ∧
     wOK.volumeContent ("/" ++ "f.bin") = [1, 2, 3] ∧
     download_and_upload_file wOK "f.bin" "/t" "vol" false =
       (true, [Event.fetchHF "f.bin", Event.hashLocal ("/t" ++ "/" ++ "f.bin"),
               Event.putCmd "vol" ("/t" ++ "/" ++ "f.bin") "f.bin",
               Event.getCmd "vol" ("/" ++ "f.bin")
                 ("/t" ++ "/verify_" ++ basename ("/" ++ "f.bin")),
               Event.hashVerify ("/t" ++ "/verify_" ++ basename ("/" ++ "f.bin")),
               Event.removeVerify ("/t" ++ "/verify_" ++ basename ("/" ++ "f.bin")),
               Event.removeLocal ("/t" ++ "/" ++ "f.bin")])) :=
  ⟨rfl, by decide, by decide, rfl,
   claim_C1 wOK "f.bin" "/t" "vol" [1, 2, 3] rfl (by decide) (by decide) rfl⟩

/-- Counterexample to claim C6 as stated.  The function compares SHA-256
digests, not contents, and SHA-256 maps infinitely many byte strings into a
finite digest space, so there exist two distinct contents with the same
digest; storing one while the local file holds the other makes the
verification pass: the function returns true (not false) and deletes the
local file, although the remote content differs from the local content. -/
theorem claim_C6_counterexample :
    ¬ ∀ (w : World) (f td vol : String) (content : Bytes),
        w.hf f = some content →
        (w.cmdResult (put_cmd vol (td ++ "/" ++ f) f)).exitCode = 0 →
        w.volumeContent ("/" ++ f) ≠ content →
        ((download_and_upload_file w f td vol false).1 = false ∧
         ∀ p, Event.removeLocal p ∉ (download_and_upload_file w f td vol false).2) := by
  intro h
  obtain ⟨x, y, hxy, hhash⟩ := calculate_file_hash_collision
  have hw : World := ⟨fun _ => ⟨0, "ok"⟩, fun _ => some x, fun _ => y, "/t"⟩
  have hput : truthy (run_command
      ((⟨fun _ => ⟨0, "ok"⟩, fun _ => some x, fun _ => y, "/t"⟩ : World).cmdResult
        (put_cmd "vol" ("/t" ++ "/" ++ "f.bin") "f.bin")) true) = true := rfl
  have hget : truthy (run_command
      ((⟨fun _ => ⟨0, "ok"⟩, fun _ => some x, fun _ => y, "/t"⟩ : World).cmdResult
        (get_cmd "vol" ("/" ++ "f.bin")
          ("/t" ++ "/verify_" ++ basename ("/" ++ "f.bin")))) false) = true := rfl
  have hver := verify_get_truthy (⟨fun _ => ⟨0, "ok"⟩, fun _ => some x, fun _ => y, "/t"⟩ : World)
    "vol" ("/" ++ "f.bin") (calculate_file_hash x) "/t" hget
  have hdec : decide (calculate_file_hash x = calculate_file_hash
      ((⟨fun _ => ⟨0, "ok"⟩, fun _ => some x, fun _ => y, "/t"⟩ : World).volumeContent
        ("/" ++ "f.bin"))) = true := decide_eq_true hhash
  rw [hdec] at hver
  have hd := dl_verify_ok (⟨fun _ => ⟨0, "ok"⟩, fun _ => some x, fun _ => y, "/t"⟩ : World)
    "f.bin" "/t" "vol" x _ rfl hput hver
  have hcon := (h (⟨fun _ => ⟨0, "ok"⟩, fun _ => some x, fun _ => y, "/t"⟩ : World)
    "f.bin" "/t" "vol" x rfl rfl (fun he => hxy he.symm)).1
  rw [hd] at hcon
  exact Bool.true_eq_false ▸ hcon

/-- Claim C6, amended: if `put` succeeds (exit code 0) but the digest of the
content stored at the destination differs from the digest of the local
content, then `download_and_upload_file` returns false and never deletes the
local fetched file.  (The hypothesis is on digests rather than raw contents
because the code compares SHA-256 digests; distinct contents with colliding
digests are accepted, see the counterexample.) -/
theorem claim_C6 (w : World) (f td vol : String) (content : Bytes)
    (hfetch : w.hf f = some content)
    (_hput : (w.cmdResult (put_cmd vol (td ++ "/" ++ f) f)).exitCode = 0)
    (hhash : calculate_file_hash (w.volumeContent ("/" ++ f)) ≠ calculate_file_hash content) :
    (download_and_upload_file w f td vol false).1 = false ∧
    ∀ p, Event.removeLocal p ∉ (download_and_upload_file w f td vol false).2 := by
  cases hstd : truthy (run_command (w.cmdResult (put_cmd vol (td ++ "/" ++ f) f)) true) with
  | false =>
    have hd := dl_put_falsy w f td vol false content hfetch hstd
    rw [hd]
    exact ⟨rfl, fun p => by simp⟩
  | true =>
    cases hget : truthy (run_command
        (w.cmdResult (get_cmd vol ("/" ++ f) (td ++ "/verify_" ++ basename ("/" ++ f))))
        false) with
    | false =>
      have hver := verify_get_falsy w vol ("/" ++ f) (calculate_file_hash content) td hget
      have hd := dl_verify_fail w f td vol content _ hfetch hstd hver
      rw [hd]
      exact ⟨rfl, fun p => by simp⟩
    | true =>
      have hver := verify_get_truthy w vol ("/" ++ f) (calculate_file_hash content) td hget
      have hdec : decide (calculate_file_hash content =
          calculate_file_hash (w.volumeContent ("/" ++ f))) = false :=
        decide_eq_false (fun hh => hhash hh.symm)
      rw [hdec] at hver
      have hd := dl_verify_fail w f td vol content _ hfetch hstd hver
      rw [hd]
      exact ⟨rfl, fun p => by simp⟩

set_option maxRecDepth 100000 in
/-- Witness for the amended C6 in the environment where the volume stores
bytes whose digest differs from the local digest. -/
theorem claim_C6_witness :
    wMismatch.hf "f.bin" = some [1, 2, 3] ∧
    ((wMismatch.cmdResult (put_cmd "vol" ("/t" ++ "/" ++ "f.bin") "f.bin")).exitCode = 0 ∧
     calculate_file_hash (wMismatch.volumeContent ("/" ++ "f.bin")) ≠
       calculate_file_hash [1, 2, 3] ∧
     ((download_and_upload_file wMismatch "f.bin" "/t" "vol" false).1 = false ∧
      ∀ p, Event.removeLocal p ∉
        (download_and_upload_file wMismatch "f.bin" "/t" "vol" false).2)) :=
  ⟨rfl, by decide, by decide,
   claim_C6 wMismatch "f.bin" "/t" "vol" [1, 2, 3] rfl (by decide) (by decide)⟩

/-- Claim C2: the process exit code is 0 exactly when the run processed the
validation shard successfully and every training shard successfully (the job
record is the full all-successful list); every other run — capability check
falsy, validation shard failed, or some training shard failed — exits 1,
and no other exit code occurs. -/
theorem claim_C2 (w : World) (skip : Bool) (vol : String) (N : Nat) :
    ((main_run w skip vol N).exitCode = 0 ↔
      (main_run w skip vol N).jobs =
        (finewebedu_val, true) :: (trainIdx N).map (fun i => (trainName i, true))) ∧
    ((main_run w skip vol N).exitCode = 0 ∨ (main_run w skip vol N).exitCode = 1) := by
  cases hcap : truthy (run_command (w.cmdResult "modal --version") false) with
  | false =>
    rw [main_run_cap_fail w skip vol N hcap]
    exact ⟨by simp, Or.inr rfl⟩
  | true =>
    cases hval : (download_and_upload_file w finewebedu_val w.tempDir vol skip).1 with
    | false =>
      rw [main_run_val_fail w skip vol N hcap hval]
      exact ⟨by simp, Or.inr rfl⟩
    | true =>
      rw [main_run_val_ok w skip vol N hcap hval]
      dsimp only
      rw [trainLoop_jobs, trainLoop_failures]
      constructor
      · constructor
        · intro h0
          have hf0 : (trainIdx N).countP
              (fun i => !(download_and_upload_file w (trainName i) w.tempDir vol skip).1)
              = 0 := by
            by_contra hne
            rw [if_pos (Nat.pos_of_ne_zero hne)] at h0
            exact one_ne_zero h0
          have hall := List.countP_eq_zero.mp hf0
          simp only [List.cons.injEq, true_and]
          rw [List.map_inj_left]
          intro i hi
          have hh := hall i hi
          simp only [Bool.not_eq_true', Bool.not_eq_false] at hh
          simp [hh]
        · intro hjobs
          simp only [List.cons.injEq, true_and] at hjobs
          rw [List.map_inj_left] at hjobs
          have hcnt : (trainIdx N).countP
              (fun i => !(download_and_upload_file w (trainName i) w.tempDir vol skip).1)
              = 0 :=
            List.countP_eq_zero.mpr (fun i hi => by
              have hp := hjobs i hi
              simp only [Prod.mk.injEq, true_and] at hp
              simp [hp])
          rw [hcnt]
          simp
      · by_cases hpos : (trainIdx N).countP
            (fun i => !(download_and_upload_file w (trainName i) w.tempDir vol skip).1) > 0
        · rw [if_pos hpos]; exact Or.inr rfl
        · rw [if_neg hpos]; exact Or.inl rfl

/-- Claim C3: when the capability check passes and every transfer succeeds,
the run processes exactly 1 + N jobs in order — first the fixed validation
name, then training shard i named with the fixed prefix, the index
zero-padded to six digits, and the fixed extension, for i = 1..N — and the
final summary reports N + 1 successful and 0 failed, with exit code 0. -/
theorem claim_C3 (w : World) (skip : Bool) (vol : String) (N : Nat)
    (hcap : truthy (run_command (w.cmdResult "modal --version") false) = true)
    (hval : (download_and_upload_file w finewebedu_val w.tempDir vol skip).1 = true)
    (htrain : ∀ i ∈ trainIdx N,
      (download_and_upload_file w (trainName i) w.tempDir vol skip).1 = true) :
    (main_run w skip vol N).jobs =
      (finewebedu_val, true) :: (trainIdx N).map (fun i => (trainName i, true)) ∧
    (main_run w skip vol N).jobs.length = N + 1 ∧
    (main_run w skip vol N).summary = some (N + 1, 0) ∧
    (main_run w skip vol N).exitCode = 0 := by
  rw [main_run_val_ok w skip vol N hcap hval]
  dsimp only
  have hfail : (trainLoop w w.tempDir vol skip (trainIdx N)).failures = 0 := by
    rw [trainLoop_failures]
    exact List.countP_eq_zero.mpr (fun i hi => by simp [htrain i hi])
  have hsucc : (trainLoop w w.tempDir vol skip (trainIdx N)).successes = N := by
    rw [trainLoop_successes]
    have hlen : (trainIdx N).countP
        (fun i => (download_and_upload_file w (trainName i) w.tempDir vol skip).1)
        = (trainIdx N).length :=
      List.countP_eq_length.mpr (fun i hi => htrain i hi)
    rw [hlen]
    simp [trainIdx]
  refine ⟨?_, ?_, ?_, ?_⟩
  · rw [trainLoop_jobs]
    simp only [List.cons.injEq, true_and]
    rw [List.map_inj_left]
    intro i hi
    simp [htrain i hi]
  · rw [trainLoop_jobs]
    simp [trainIdx]
  · rw [hsucc, hfail]
  · rw [hfail]
    simp

/-- Witness for C3: all transfers succeed, two training chunks, verification
skipped. -/
theorem claim_C3_witness :
    truthy (run_command (wOK.cmdResult "modal --version") false) = true ∧
    ((download_and_upload_file wOK finewebedu_val wOK.tempDir "vol" true).1 = true ∧
     (∀ i ∈ trainIdx 2,
       (download_and_upload_file wOK (trainName i) wOK.tempDir "vol" true).1 = true) ∧
     ((main_run wOK true "vol" 2).jobs =
        (finewebedu_val, true) :: (trainIdx 2).map (fun i => (trainName i, true)) ∧
      (main_run wOK true "vol" 2).jobs.length = 2 + 1 ∧
      (main_run wOK true "vol" 2).summary = some (2 + 1, 0) ∧
      (main_run wOK true "vol" 2).exitCode = 0)) :=
  ⟨by decide, by decide, by decide,
   claim_C3 wOK true "vol" 2 (by decide) (by decide) (by decide)⟩

/-- Claim C4: if the capability check passes but the validation job fails,
the run exits 1 having processed only the validation job, and no training
shard is ever fetched, uploaded, or pulled back for verification. -/
theorem claim_C4 (w : World) (skip : Bool) (vol : String) (N : Nat)
    (hcap : truthy (run_command (w.cmdResult "modal --version") false) = true)
    (hval : (download_and_upload_file w finewebedu_val w.tempDir vol skip).1 = false) :
    (main_run w skip vol N).exitCode = 1 ∧
    (main_run w skip vol N).jobs = [(finewebedu_val, false)] ∧
    ∀ i ∈ trainIdx N,
      Event.fetchHF (trainName i) ∉ (main_run w skip vol N).events ∧
      (∀ v lp, Event.putCmd v lp (trainName i) ∉ (main_run w skip vol N).events) ∧
      (∀ v vp, Event.getCmd v ("/" ++ trainName i) vp ∉ (main_run w skip vol N).events) := by
  rw [main_run_val_fail w skip vol N hcap hval]
  dsimp only
  refine ⟨rfl, rfl, ?_⟩
  intro i _
  have hne := finewebedu_val_ne_trainName i
  refine ⟨?_, ?_, ?_⟩
  · intro hmem
    rcases List.mem_cons.mp hmem with h | h
    · exact absurd h (by simp)
    · exact hne (dl_fetch_mem w finewebedu_val w.tempDir vol skip _ h).symm
  · intro v lp hmem
    rcases List.mem_cons.mp hmem with h | h
    · exact absurd h (by simp)
    · exact hne (dl_put_mem w finewebedu_val w.tempDir vol skip v lp _ h).symm
  · intro v vp hmem
    rcases List.mem_cons.mp hmem with h | h
    · exact absurd h (by simp)
    · have heq := dl_get_mem w finewebedu_val w.tempDir vol skip v _ vp h
      have hlen := congrArg String.length heq
      rw [String.length_append, String.length_append] at hlen
      have h25 : finewebedu_val.length = 25 := rfl
      have htl := trainName_length i
      omega

/-- Witness for C4: the validation fetch raises, one training chunk. -/
theorem claim_C4_witness :
    truthy (run_command (wValFetchFail.cmdResult "modal --version") false) = true ∧
    ((download_and_upload_file wValFetchFail finewebedu_val wValFetchFail.tempDir "vol"
        true).1 = false ∧
     ((main_run wValFetchFail true "vol" 1).exitCode = 1 ∧
      (main_run wValFetchFail true "vol" 1).jobs = [(finewebedu_val, false)] ∧
      ∀ i ∈ trainIdx 1,
        Event.fetchHF (trainName i) ∉ (main_run wValFetchFail true "vol" 1).events ∧
        (∀ v lp, Event.putCmd v lp (trainName i) ∉
          (main_run wValFetchFail true "vol" 1).events) ∧
        (∀ v vp, Event.getCmd v ("/" ++ trainName i) vp ∉
          (main_run wValFetchFail true "vol" 1).events))) :=
  ⟨by decide, by decide, claim_C4 wValFetchFail true "vol" 1 (by decide) (by decide)⟩

/-- Claim C9: every modelled per-job error is converted into a recorded
failed outcome at the job boundary — a raised fetch error makes the job
function return false with only the fetch in its trace — and the
orchestrator processes every training shard whenever the validation shard
succeeded, whatever the individual outcomes; only a falsy capability check
and a failed validation shard terminate the whole run early. -/
theorem claim_C9 (w : World) (f vol td : String) (skip : Bool) (N : Nat) :
    (w.hf f = none → download_and_upload_file w f td vol skip = (false, [Event.fetchHF f])) ∧
    (truthy (run_command (w.cmdResult "modal --version") false) = true →
      (download_and_upload_file w finewebedu_val w.tempDir vol skip).1 = true →
      (main_run w skip vol N).jobs.map Prod.fst =
        finewebedu_val :: (trainIdx N).map trainName) ∧
    (truthy (run_command (w.cmdResult "modal --version") false) = true →
      (download_and_upload_file w finewebedu_val w.tempDir vol skip).1 = false →
      main_run w skip vol N =
        ⟨1, [(finewebedu_val, false)],
         Event.checkVersion ::
           (download_and_upload_file w finewebedu_val w.tempDir vol skip).2, none⟩) ∧
    (truthy (run_command (w.cmdResult "modal --version") false) = false →
      main_run w skip vol N = ⟨1, [], [Event.checkVersion], none⟩) := by
  refine ⟨dl_fetch_fail w f td vol skip, ?_, main_run_val_fail w skip vol N,
    main_run_cap_fail w skip vol N⟩
  intro hcap hval
  rw [main_run_val_ok w skip vol N hcap hval]
  dsimp only
  rw [trainLoop_jobs]
  simp [List.map_map, Function.comp]

/-- Witness for C9: training shard 1 fails to fetch, yet both training
shards are processed after the successful validation shard. -/
theorem claim_C9_witness :
    wTrain1Fail.hf (trainName 1) = none ∧
    download_and_upload_file wTrain1Fail (trainName 1) "/t" "vol" true =
      (false, [Event.fetchHF (trainName 1)]) ∧
    truthy (run_command (wTrain1Fail.cmdResult "modal --version") false) = true ∧
    (download_and_upload_file wTrain1Fail finewebedu_val wTrain1Fail.tempDir "vol" true).1
      = true ∧
    (main_run wTrain1Fail true "vol" 2).jobs.map Prod.fst =
      finewebedu_val :: (trainIdx 2).map trainName :=
  ⟨by decide, (claim_C9 wTrain1Fail (trainName 1) "vol" "/t" true 2).1 (by decide), by decide,
   by decide, (claim_C9 wTrain1Fail (trainName 1) "vol" "/t" true 2).2.1 (by decide) (by decide)⟩

/-- Claim C10: `run_command` returns `None` exactly when the command exits
nonzero and otherwise returns the captured standard output; and because
every caller tests the returned value for truthiness, a command exiting 0
with empty standard output is treated as a failure throughout the pipeline:
the capability check aborts the run, an upload is reported failed, and a
verification re-download is reported failed. -/
theorem claim_C10 (r : CmdResult) (sp : Bool) (w : World) (f td vol lh : String)
    (content : Bytes) (skip : Bool) (N : Nat) :
    (run_command r sp = none ↔ r.exitCode ≠ 0) ∧
    (r.exitCode = 0 → run_command r sp = some r.stdout) ∧
    (w.cmdResult "modal --version" = ⟨0, ""⟩ →
      main_run w skip vol N = ⟨1, [], [Event.checkVersion], none⟩) ∧
    (w.hf f = some content → w.cmdResult (put_cmd vol (td ++ "/" ++ f) f) = ⟨0, ""⟩ →
      (download_and_upload_file w f td vol skip).1 = false) ∧
    (w.cmdResult (get_cmd vol ("/" ++ f) (td ++ "/verify_" ++ basename ("/" ++ f))) = ⟨0, ""⟩ →
      (verify_modal_upload w vol ("/" ++ f) lh td).1 = false) := by
  refine ⟨run_command_eq_none_iff r sp, run_command_of_zero r sp, ?_, ?_, ?_⟩
  · intro hver
    apply main_run_cap_fail
    rw [hver]
    exact truthy_empty_stdout false
  · intro hfetch hput
    have hfalse : truthy (run_command (w.cmdResult (put_cmd vol (td ++ "/" ++ f) f)) true)
        = false := by
      rw [hput]; exact truthy_empty_stdout true
    rw [dl_put_falsy w f td vol skip content hfetch hfalse]
  · intro hget
    have hfalse : truthy (run_command
        (w.cmdResult (get_cmd vol ("/" ++ f) (td ++ "/verify_" ++ basename ("/" ++ f))))
        false) = false := by
      rw [hget]; exact truthy_empty_stdout false
    rw [verify_get_falsy w vol ("/" ++ f) lh td hfalse]

set_option maxRecDepth 100000 in
/-- Witness for C10: a failing command yields `None`; the run aborts on an
empty-output capability check; an empty-output upload and an empty-output
re-download are both reported as failures. -/
theorem claim_C10_witness :
    (run_command ⟨1, "x"⟩ false = none ↔ (1 : Nat) ≠ 0) ∧
    main_run wVersionEmpty false "vol" 2 = ⟨1, [], [Event.checkVersion], none⟩ ∧
    (download_and_upload_file wPutEmpty "f.bin" "/t" "vol" false).1 = false ∧
    (verify_modal_upload wGetEmpty "vol" ("/" ++ "f.bin") "zz" "/t").1 = false :=
  ⟨(claim_C10 ⟨1, "x"⟩ false wVersionEmpty "f.bin" "/t" "vol" "zz" [1, 2, 3] false 2).1,
   (claim_C10 ⟨1, "x"⟩ false wVersionEmpty "f.bin" "/t" "vol" "zz" [1, 2, 3] false 2).2.2.1
     (by decide),
   (claim_C10 ⟨1, "x"⟩ false wPutEmpty "f.bin" "/t" "vol" "zz" [1, 2, 3] false 2).2.2.2.1
     rfl (by decide),
   (claim_C10 ⟨1, "x"⟩ false wGetEmpty "f.bin" "/t" "vol" "zz" [1, 2, 3] false 2).2.2.2.2
     (by decide)⟩
